import Mathlib

/-!
Shallow embedding of the transaction/ledger core of `src/app.py`, a
Streamlit + sqlite small-business inventory and GST-invoicing program.

Modelling conventions:

* sqlite tables are lists of row structures inside a `DB` record; the
  sqlite `AUTOINCREMENT` id of the `invoices` table is carried as
  `DB.next_inv` (the id the next inserted header receives, i.e. the
  `lastrowid` of that insert).
* sqlite `REAL` columns and Python floats are modelled as `ℚ`.
  Python's built-in `round(x, 2)` is modelled by `round2`, rounding half
  to even at two decimal places; this agrees with CPython exactly
  whenever the value being rounded is exactly representable in binary
  floating point, and every concrete input used in a theorem below is
  chosen to be exactly representable so the model and the program agree
  on it step by step.
* the single `sqlite3` connection (shared by all sessions through
  `st.cache_resource`) is modelled by `Conn`: a committed database plus
  the list of writes of the currently open implicit transaction.
  Statements executed on the connection are visible to later reads on
  the same connection before any commit (`visible`), which is sqlite's
  behaviour for reads inside the writing transaction.
-/

/-- Round a rational to an integer, ties to even: the rounding CPython's
built-in `round` performs (on the value the argument float represents). -/
def rhe (q : ℚ) : ℤ :=
  if q - ⌊q⌋ < 1 / 2 then ⌊q⌋
  else if 1 / 2 < q - ⌊q⌋ then ⌊q⌋ + 1
  else if ⌊q⌋ % 2 = 0 then ⌊q⌋ else ⌊q⌋ + 1

/-- Model of Python `round(x, 2)`: round half to even at two decimal
places (exact for values exactly representable in binary floating point). -/
def round2 (q : ℚ) : ℚ := (rhe (q * 100) : ℚ) / 100

/-- Rounding half *up* (ties away from the floor) at two decimal places:
the rounding rule the specification calls "standard half-up rounding".
This definition follows the spec's words and is only used to compare the
spec's rounding rule against the program's. -/
def rhu2 (q : ℚ) : ℚ := ((⌊q * 100 + 1 / 2⌋ : ℤ) : ℚ) / 100

/-- Row of the `products` table (descriptive columns omitted). -/
structure Product where
  id : ℕ
  name : String
  selling_price : ℚ
  tax_rate : ℚ
deriving DecidableEq, Repr

/-- Row of the `purchases` table. -/
structure PurchaseRow where
  product_id : ℕ
  qty : ℚ
  cost_price : ℚ
deriving DecidableEq, Repr

/-- Row of the `stock_adjustments` table. -/
structure AdjRow where
  product_id : ℕ
  qty_delta : ℚ
deriving DecidableEq, Repr

/-- Row of the `invoices` table. -/
structure InvoiceRow where
  id : ℕ
  invoice_no : String
  customer_id : Option ℕ
  date : String
  total_tax : ℚ
  subtotal : ℚ
  total_amount : ℚ
  supply_type : String
  notes : String
deriving DecidableEq, Repr

/-- Row of the `invoice_items` table. -/
structure ItemRow where
  invoice_id : ℕ
  product_id : ℕ
  qty : ℚ
  selling_price : ℚ
  gst_rate : ℚ
  tax_amount : ℚ
  cgst_rate : ℚ
  sgst_rate : ℚ
  igst_rate : ℚ
  cgst_amount : ℚ
  sgst_amount : ℚ
  igst_amount : ℚ
  line_total : ℚ
deriving DecidableEq, Repr

/-- Row of the legacy `sales` table (one mirrored row per invoice line). -/
structure SaleRow where
  product_id : ℕ
  qty : ℚ
  selling_price : ℚ
  gst_rate : ℚ
  tax_amount : ℚ
  total_amount : ℚ
  invoice_no : String
  customer : String
  sold_at : String
  notes : String
deriving DecidableEq, Repr

/-- Row of the `customers` table (no stored balance column exists). -/
structure Customer where
  id : ℕ
  name : String
  opening_balance : ℚ
  credit_limit : ℚ
deriving DecidableEq, Repr

/-- Row of the `payments` table. -/
structure PaymentRow where
  customer_id : Option ℕ
  invoice_id : Option ℕ
  amount : ℚ
deriving DecidableEq, Repr

/-- The sqlite database: one list per table, plus the id the next
inserted invoice header receives (`AUTOINCREMENT` / `lastrowid`). -/
@[ext]
structure DB where
  products : List Product
  purchases : List PurchaseRow
  invoices : List InvoiceRow
  invoice_items : List ItemRow
  sales : List SaleRow
  stock_adjustments : List AdjRow
  customers : List Customer
  payments : List PaymentRow
  next_inv : ℕ
deriving DecidableEq, Repr

/-- An entry of the cart handed to `create_invoice`: the Python dict
`{product_id, qty, selling_price, gst_rate}`. `product_id` is `Option`
because the dict value may be `None` (then `int(...)` raises), and
`gst_rate` is `Option` because the code reads it with `.get('gst_rate', 0)`. -/
structure Item where
  product_id : Option ℕ
  qty : ℚ
  selling_price : ℚ
  gst_rate : Option ℚ
deriving DecidableEq, Repr

/-- `get_stock(product_id)` from `src/app.py`: sum of purchase quantities,
minus the sum of `invoice_items` quantities plus the sum of `sales`
quantities, plus the sum of adjustment deltas.  The function never looks
at the `products` table. -/
def get_stock (db : DB) (pid : ℕ) : ℚ :=
  let p := ((db.purchases.filter (fun r => r.product_id == pid)).map (fun r => r.qty)).sum
  let s := ((db.invoice_items.filter (fun r => r.product_id == pid)).map (fun r => r.qty)).sum
  let s2 := ((db.sales.filter (fun r => r.product_id == pid)).map (fun r => r.qty)).sum
  let adj := ((db.stock_adjustments.filter (fun r => r.product_id == pid)).map (fun r => r.qty_delta)).sum
  p - (s + s2) + adj

/-- `COALESCE(SUM(i.total_amount),0)` over the invoices of one customer,
as in the `customer_balances` query. -/
def billedFor (db : DB) (cid : ℕ) : ℚ :=
  ((db.invoices.filter (fun i => i.customer_id == some cid)).map (fun i => i.total_amount)).sum

/-- `COALESCE((SELECT SUM(p.amount) FROM payments p WHERE p.customer_id=c.id),0)`
over the payments of one customer, as in the `customer_balances` query. -/
def paidFor (db : DB) (cid : ℕ) : ℚ :=
  ((db.payments.filter (fun p => p.customer_id == some cid)).map (fun p => p.amount)).sum

/-- One row of the data frame produced by `customer_balances`. -/
structure BalanceRow where
  id : ℕ
  name : String
  credit_limit : ℚ
  billed : ℚ
  paid : ℚ
  opening_balance : ℚ
  balance : ℚ
  over_limit : Bool
deriving DecidableEq, Repr

/-- `customer_balances()` from `src/app.py`: per customer, `billed` and
`paid` aggregates, then the derived columns
`balance = billed - paid + opening_balance` and
`over_limit = (credit_limit > 0) & (balance > credit_limit)`. -/
def customer_balances (db : DB) : List BalanceRow :=
  db.customers.map (fun c =>
    let billed := billedFor db c.id
    let paid := paidFor db c.id
    { id := c.id
      name := c.name
      credit_limit := c.credit_limit
      billed := billed
      paid := paid
      opening_balance := c.opening_balance
      balance := billed - paid + c.opening_balance
      over_limit := decide ((0 : ℚ) < c.credit_limit) &&
        decide (c.credit_limit < billed - paid + c.opening_balance) })

/-- Python `f"{n:04d}"` for a natural number: the decimal digits of `n`,
left-padded with zeros to a minimum width of four. -/
def zfill4 (n : ℕ) : String :=
  String.mk (List.replicate (4 - (Nat.repr n).length) '0' ++ (Nat.repr n).data)

/-- `next_invoice_no()` from `src/app.py`: `ym` stands for
`datetime.now().strftime("%Y%m")` and the sequence part is
`COUNT(*) FROM invoices` plus one, formatted `{:04d}`. -/
def next_invoice_no (ym : String) (db : DB) : String :=
  "INV-" ++ ym ++ "-" ++ zfill4 (db.invoices.length + 1)

/-- The pre-tax base of a cart line:
`float(it['selling_price']) * float(it['qty'])` in `create_invoice`. -/
def lineBase (it : Item) : ℚ := it.selling_price * it.qty

/-- The per-line record `create_invoice` builds in its first loop: the
input line plus tax amount and the CGST/SGST/IGST split chosen by
`supply_type` (any string other than `'INTRA'` takes the `else` branch). -/
structure Split where
  product_id : Option ℕ
  qty : ℚ
  selling_price : ℚ
  gst_rate : ℚ
  tax_amount : ℚ
  cgst_rate : ℚ
  sgst_rate : ℚ
  igst_rate : ℚ
  cgst_amount : ℚ
  sgst_amount : ℚ
  igst_amount : ℚ
deriving DecidableEq, Repr

/-- First-phase computation of `create_invoice` for one cart line:
`tax_amount = round(line_base * rate/100.0, 2)`, then the GST split. -/
def gstSplit (supply_type : String) (it : Item) : Split :=
  let rate := it.gst_rate.getD 0
  let tax_amount := round2 (lineBase it * rate / 100)
  if supply_type = "INTRA" then
    { product_id := it.product_id
      qty := it.qty
      selling_price := it.selling_price
      gst_rate := rate
      tax_amount := tax_amount
      cgst_rate := rate / 2
      sgst_rate := rate / 2
      igst_rate := 0
      cgst_amount := round2 (tax_amount / 2)
      sgst_amount := tax_amount - round2 (tax_amount / 2)
      igst_amount := 0 }
  else
    { product_id := it.product_id
      qty := it.qty
      selling_price := it.selling_price
      gst_rate := rate
      tax_amount := tax_amount
      cgst_rate := 0
      sgst_rate := 0
      igst_rate := rate
      cgst_amount := 0
      sgst_amount := 0
      igst_amount := tax_amount }

/-- `line_total = round((selling_price * qty) + tax_amount, 2)`, computed
in the insertion loop of `create_invoice`. -/
def line_total_of (s : Split) : ℚ := round2 (s.selling_price * s.qty + s.tax_amount)

/-- The `invoice_items` row inserted for one split line. -/
def mkItemRow (inv_id : ℕ) (pid : ℕ) (s : Split) : ItemRow :=
  { invoice_id := inv_id
    product_id := pid
    qty := s.qty
    selling_price := s.selling_price
    gst_rate := s.gst_rate
    tax_amount := s.tax_amount
    cgst_rate := s.cgst_rate
    sgst_rate := s.sgst_rate
    igst_rate := s.igst_rate
    cgst_amount := s.cgst_amount
    sgst_amount := s.sgst_amount
    igst_amount := s.igst_amount
    line_total := line_total_of s }

/-- The legacy `sales` row mirrored for one split line (empty customer,
`total_amount` equal to the line total). -/
def mkSaleRow (invoice_no sold_at notes : String) (pid : ℕ) (s : Split) : SaleRow :=
  { product_id := pid
    qty := s.qty
    selling_price := s.selling_price
    gst_rate := s.gst_rate
    tax_amount := s.tax_amount
    total_amount := line_total_of s
    invoice_no := invoice_no
    customer := ""
    sold_at := sold_at
    notes := notes }

/-- A single `INSERT` executed on the connection during `create_invoice`. -/
inductive Write
  | inv : InvoiceRow → Write
  | item : ItemRow → Write
  | sale : SaleRow → Write
deriving DecidableEq, Repr

/-- Effect of one insert on the database (append to the table; an
invoice header insert also advances the `AUTOINCREMENT` counter). -/
def applyWrite (db : DB) : Write → DB
  | .inv r => { db with invoices := db.invoices ++ [r], next_inv := db.next_inv + 1 }
  | .item r => { db with invoice_items := db.invoice_items ++ [r] }
  | .sale r => { db with sales := db.sales ++ [r] }

/-- Effect of a sequence of inserts. -/
def applyWrites (db : DB) (ws : List Write) : DB := ws.foldl applyWrite db

/-- The shared sqlite connection: the committed database plus the writes
of the currently open implicit transaction (not yet committed). -/
@[ext]
structure Conn where
  committed : DB
  pending : List Write
deriving DecidableEq, Repr

/-- What a read on the same connection sees: committed rows plus the
pending writes of the open transaction. -/
def visible (c : Conn) : DB := applyWrites c.committed c.pending

/-- The invoice number `create_invoice` uses: the argument when it is a
truthy string, otherwise (`None` or `""`) a generated `next_invoice_no`. -/
def chosen_no (invoice_no : Option String) (ym : String) (db : DB) : String :=
  match invoice_no with
  | none => next_invoice_no ym db
  | some s => if s = "" then next_invoice_no ym db else s

/-- The invoice date `create_invoice` uses: the argument when truthy,
otherwise `datetime.now().isoformat()` (passed in as `nowIso`). -/
def chosen_date (wh : Option String) (nowIso : String) : String :=
  match wh with
  | none => nowIso
  | some s => if s = "" then nowIso else s

/-- Foreign-key check performed by sqlite on the header insert:
`customer_id` must be `NULL` or reference an existing customer. -/
def customerOk (customers : List Customer) : Option ℕ → Bool
  | none => true
  | some cid => customers.any (fun c => c.id == cid)

/-- The insertion loop of `create_invoice`, statement by statement: for
each split line it runs `int(it['product_id'])` (raising on `None`),
then inserts the `invoice_items` row and the mirrored `sales` row; the
`invoice_items`/`sales` inserts raise when the product id violates the
foreign key.  Returns the inserts executed before the first failure and
whether the loop completed. -/
def itemWrites (products : List Product) (inv_id : ℕ)
    (invoice_no sold_at notes : String) : List Split → List Write × Bool
  | [] => ([], true)
  | s :: rest =>
    match s.product_id with
    | none => ([], false)
    | some pid =>
      if products.any (fun p => p.id == pid) then
        let r := itemWrites products inv_id invoice_no sold_at notes rest
        (Write.item (mkItemRow inv_id pid s) ::
          Write.sale (mkSaleRow invoice_no sold_at notes pid s) :: r.1, r.2)
      else ([], false)

/-- `create_invoice(items, customer_id, notes, invoice_no, when, supply_type)`
from `src/app.py`, executed on the shared connection `c`.

Phase one computes the raw subtotal, the rounded per-line tax amounts and
their sum, and `total_amount = round(subtotal + total_tax, 2)`.  The
header insert raises (nothing is written) when the chosen invoice number
violates the `UNIQUE` constraint against the rows visible on the
connection or the customer reference violates its foreign key.  The
insertion loop then runs statement by statement; if it completes,
`conn.commit()` makes every pending write durable and the pair
`(lastrowid, invoice_no)` is returned, otherwise the exception leaves the
already-executed inserts pending on the connection (no rollback is
issued) and no commit happens. -/
def create_invoice_exec (c : Conn) (items : List Item) (customer_id : Option ℕ)
    (notes : String) (invoice_no : Option String) (wh : Option String)
    (supply_type ym nowIso : String) : Conn × Option (ℕ × String) :=
  let db := visible c
  let splits := items.map (gstSplit supply_type)
  let subtotal := (items.map lineBase).sum
  let total_tax := (splits.map (fun s => s.tax_amount)).sum
  let total_amount := round2 (subtotal + total_tax)
  let invNo := chosen_no invoice_no ym db
  let d := chosen_date wh nowIso
  if (db.invoices.any (fun r => r.invoice_no == invNo)) ||
      !(customerOk db.customers customer_id) then
    (c, none)
  else
    let inv_id := db.next_inv
    let header : InvoiceRow :=
      { id := inv_id
        invoice_no := invNo
        customer_id := customer_id
        date := d
        total_tax := total_tax
        subtotal := subtotal
        total_amount := total_amount
        supply_type := supply_type
        notes := notes }
    let r := itemWrites db.products inv_id invNo d notes splits
    let pending := c.pending ++ Write.inv header :: r.1
    if r.2 then
      ({ committed := applyWrites c.committed pending, pending := [] },
       some (inv_id, invNo))
    else
      ({ committed := c.committed, pending := pending }, none)

/-- The invoice header `create_invoice` inserts, as a function of the
visible database and the call's arguments. -/
def headerOf (db : DB) (items : List Item) (customer_id : Option ℕ)
    (notes : String) (invoice_no wh : Option String)
    (supply_type ym nowIso : String) : InvoiceRow :=
  { id := db.next_inv
    invoice_no := chosen_no invoice_no ym db
    customer_id := customer_id
    date := chosen_date wh nowIso
    total_tax := ((items.map (gstSplit supply_type)).map (fun s => s.tax_amount)).sum
    subtotal := (items.map lineBase).sum
    total_amount := round2 ((items.map lineBase).sum +
      ((items.map (gstSplit supply_type)).map (fun s => s.tax_amount)).sum)
    supply_type := supply_type
    notes := notes }

/-- The `invoice_items` rows a completed `create_invoice` call inserts. -/
def splitRows (inv_id : ℕ) (supply_type : String) (items : List Item) : List ItemRow :=
  items.map (fun it => mkItemRow inv_id (it.product_id.getD 0) (gstSplit supply_type it))

/-- The mirrored `sales` rows a completed `create_invoice` call inserts. -/
def saleRowsOf (invoice_no sold_at notes supply_type : String)
    (items : List Item) : List SaleRow :=
  items.map (fun it =>
    mkSaleRow invoice_no sold_at notes (it.product_id.getD 0) (gstSplit supply_type it))

/-- The header row of a `Write`, if it is one. -/
def invPart : Write → Option InvoiceRow
  | .inv r => some r
  | _ => none

/-- The `invoice_items` row of a `Write`, if it is one. -/
def itemPart : Write → Option ItemRow
  | .item r => some r
  | _ => none

/-- The `sales` row of a `Write`, if it is one. -/
def salePart : Write → Option SaleRow
  | .sale r => some r
  | _ => none

theorem applyWrites_products (db : DB) (ws : List Write) :
    (applyWrites db ws).products = db.products := by
  induction ws generalizing db with
  | nil => rfl
  | cons w ws ih =>
      have h : applyWrites db (w :: ws) = applyWrites (applyWrite db w) ws := rfl
      rw [h, ih]
      cases w <;> rfl

theorem applyWrites_purchases (db : DB) (ws : List Write) :
    (applyWrites db ws).purchases = db.purchases := by
  induction ws generalizing db with
  | nil => rfl
  | cons w ws ih =>
      have h : applyWrites db (w :: ws) = applyWrites (applyWrite db w) ws := rfl
      rw [h, ih]
      cases w <;> rfl

theorem applyWrites_adjustments (db : DB) (ws : List Write) :
    (applyWrites db ws).stock_adjustments = db.stock_adjustments := by
  induction ws generalizing db with
  | nil => rfl
  | cons w ws ih =>
      have h : applyWrites db (w :: ws) = applyWrites (applyWrite db w) ws := rfl
      rw [h, ih]
      cases w <;> rfl

theorem applyWrites_customers (db : DB) (ws : List Write) :
    (applyWrites db ws).customers = db.customers := by
  induction ws generalizing db with
  | nil => rfl
  | cons w ws ih =>
      have h : applyWrites db (w :: ws) = applyWrites (applyWrite db w) ws := rfl
      rw [h, ih]
      cases w <;> rfl

theorem applyWrites_payments (db : DB) (ws : List Write) :
    (applyWrites db ws).payments = db.payments := by
  induction ws generalizing db with
  | nil => rfl
  | cons w ws ih =>
      have h : applyWrites db (w :: ws) = applyWrites (applyWrite db w) ws := rfl
      rw [h, ih]
      cases w <;> rfl

theorem applyWrites_invoices (db : DB) (ws : List Write) :
    (applyWrites db ws).invoices = db.invoices ++ ws.filterMap invPart := by
  induction ws generalizing db with
  | nil => simp [applyWrites]
  | cons w ws ih =>
      have h : applyWrites db (w :: ws) = applyWrites (applyWrite db w) ws := rfl
      rw [h, ih]
      cases w <;> simp [applyWrite, invPart, List.filterMap_cons]

theorem applyWrites_items (db : DB) (ws : List Write) :
    (applyWrites db ws).invoice_items = db.invoice_items ++ ws.filterMap itemPart := by
  induction ws generalizing db with
  | nil => simp [applyWrites]
  | cons w ws ih =>
      have h : applyWrites db (w :: ws) = applyWrites (applyWrite db w) ws := rfl
      rw [h, ih]
      cases w <;> simp [applyWrite, itemPart, List.filterMap_cons]

theorem applyWrites_sales (db : DB) (ws : List Write) :
    (applyWrites db ws).sales = db.sales ++ ws.filterMap salePart := by
  induction ws generalizing db with
  | nil => simp [applyWrites]
  | cons w ws ih =>
      have h : applyWrites db (w :: ws) = applyWrites (applyWrite db w) ws := rfl
      rw [h, ih]
      cases w <;> simp [applyWrite, salePart, List.filterMap_cons]

/-- The full list of inserts the item loop executes when no line fails. -/
def writeList (inv_id : ℕ) (invoice_no sold_at notes : String) : List Split → List Write
  | [] => []
  | s :: rest =>
      Write.item (mkItemRow inv_id (s.product_id.getD 0) s) ::
        Write.sale (mkSaleRow invoice_no sold_at notes (s.product_id.getD 0) s) ::
        writeList inv_id invoice_no sold_at notes rest

theorem itemWrites_all_ok (products : List Product) (inv_id : ℕ)
    (invoice_no sold_at notes : String) (splits : List Split)
    (h : ∀ s ∈ splits, ∃ pid, s.product_id = some pid ∧
      products.any (fun p => p.id == pid) = true) :
    itemWrites products inv_id invoice_no sold_at notes splits =
      (writeList inv_id invoice_no sold_at notes splits, true) := by
  induction splits with
  | nil => rfl
  | cons s rest ih =>
      obtain ⟨pid, hpid, hany⟩ := h s (by simp)
      have hrest := ih (fun s hs => h s (by simp [hs]))
      simp [itemWrites, writeList, hpid, hany, hrest]

theorem writeList_invs (inv_id : ℕ) (invoice_no sold_at notes : String)
    (splits : List Split) :
    (writeList inv_id invoice_no sold_at notes splits).filterMap invPart = [] := by
  induction splits with
  | nil => rfl
  | cons s rest ih => simp [writeList, List.filterMap_cons, invPart, ih]

theorem writeList_items (inv_id : ℕ) (invoice_no sold_at notes : String)
    (splits : List Split) :
    (writeList inv_id invoice_no sold_at notes splits).filterMap itemPart =
      splits.map (fun s => mkItemRow inv_id (s.product_id.getD 0) s) := by
  induction splits with
  | nil => rfl
  | cons s rest ih => simp [writeList, List.filterMap_cons, itemPart, salePart, ih]

theorem writeList_sales (inv_id : ℕ) (invoice_no sold_at notes : String)
    (splits : List Split) :
    (writeList inv_id invoice_no sold_at notes splits).filterMap salePart =
      splits.map (fun s => mkSaleRow invoice_no sold_at notes (s.product_id.getD 0) s) := by
  induction splits with
  | nil => rfl
  | cons s rest ih => simp [writeList, List.filterMap_cons, itemPart, salePart, ih]

theorem applyWrites_next_inv (db : DB) (ws : List Write) :
    (applyWrites db ws).next_inv = db.next_inv + (ws.filterMap invPart).length := by
  induction ws generalizing db with
  | nil => simp [applyWrites]
  | cons w ws ih =>
      have h : applyWrites db (w :: ws) = applyWrites (applyWrite db w) ws := rfl
      rw [h, ih]
      cases w <;> simp [applyWrite, invPart, List.filterMap_cons] <;> omega

theorem gstSplit_product_id (supply : String) (it : Item) :
    (gstSplit supply it).product_id = it.product_id := by
  unfold gstSplit
  split <;> rfl

theorem map_mkItemRow (inv_id : ℕ) (supply : String) (items : List Item) :
    (items.map (gstSplit supply)).map (fun s => mkItemRow inv_id (s.product_id.getD 0) s) =
      splitRows inv_id supply items := by
  rw [splitRows, List.map_map]
  congr 1
  funext it
  simp only [Function.comp_apply, gstSplit_product_id]

theorem map_mkSaleRow (no d nts supply : String) (items : List Item) :
    (items.map (gstSplit supply)).map
        (fun s => mkSaleRow no d nts (s.product_id.getD 0) s) =
      saleRowsOf no d nts supply items := by
  rw [saleRowsOf, List.map_map]
  congr 1
  funext it
  simp only [Function.comp_apply, gstSplit_product_id]

theorem applyWrites_header_writeList (db : DB) (hdr : InvoiceRow) (inv_id : ℕ)
    (no d nts : String) (splits : List Split) :
    applyWrites db (Write.inv hdr :: writeList inv_id no d nts splits) =
      { db with
          invoices := db.invoices ++ [hdr],
          invoice_items := db.invoice_items ++
            splits.map (fun s => mkItemRow inv_id (s.product_id.getD 0) s),
          sales := db.sales ++
            splits.map (fun s => mkSaleRow no d nts (s.product_id.getD 0) s),
          next_inv := db.next_inv + 1 } := by
  apply DB.ext <;>
    simp [applyWrites_products, applyWrites_purchases, applyWrites_invoices,
      applyWrites_items, applyWrites_sales, applyWrites_adjustments,
      applyWrites_customers, applyWrites_payments, applyWrites_next_inv,
      writeList_invs, writeList_items, writeList_sales,
      List.filterMap_cons, invPart, itemPart, salePart]

theorem visible_nil (db : DB) : visible ⟨db, []⟩ = db := rfl

/-- A `create_invoice` call on a connection with no open transaction,
whose lines all carry a valid product id, whose customer reference is
valid, and whose chosen invoice number is fresh, commits exactly the
header, the item rows and the mirrored sale rows, and returns
`(lastrowid, invoice_no)`. -/
theorem exec_ok (db : DB) (items : List Item) (cust : Option ℕ) (notes : String)
    (invno wh : Option String) (supply ym nowIso : String)
    (hpids : ∀ it ∈ items, ∃ pid, it.product_id = some pid ∧
      db.products.any (fun p => p.id == pid) = true)
    (hcust : customerOk db.customers cust = true)
    (hfresh : db.invoices.any (fun r => r.invoice_no == chosen_no invno ym db) = false) :
    create_invoice_exec ⟨db, []⟩ items cust notes invno wh supply ym nowIso =
      (⟨{ db with
            invoices := db.invoices ++
              [headerOf db items cust notes invno wh supply ym nowIso],
            invoice_items := db.invoice_items ++ splitRows db.next_inv supply items,
            sales := db.sales ++
              saleRowsOf (chosen_no invno ym db) (chosen_date wh nowIso) notes supply items,
            next_inv := db.next_inv + 1 }, []⟩,
       some (db.next_inv, chosen_no invno ym db)) := by
  have hsplits : ∀ s ∈ items.map (gstSplit supply), ∃ pid, s.product_id = some pid ∧
      db.products.any (fun p => p.id == pid) = true := by
    intro s hs
    obtain ⟨it, hit, rfl⟩ := List.mem_map.mp hs
    obtain ⟨pid, hpid, hany⟩ := hpids it hit
    exact ⟨pid, (gstSplit_product_id supply it).trans hpid, hany⟩
  have hiw := itemWrites_all_ok db.products db.next_inv (chosen_no invno ym db)
    (chosen_date wh nowIso) notes (items.map (gstSplit supply)) hsplits
  simp only [create_invoice_exec, visible_nil, hfresh, hcust, hiw, Bool.not_true,
    Bool.or_false, Bool.false_eq_true, if_false, ite_false, List.nil_append]
  rw [applyWrites_header_writeList, map_mkItemRow, map_mkSaleRow]
  simp only [if_true]
  rfl

theorem rhe_intCast (k : ℤ) : rhe (k : ℚ) = k := by
  unfold rhe
  rw [Int.floor_intCast]
  norm_num

theorem round2_cent (k : ℤ) : round2 ((k : ℚ) / 100) = (k : ℚ) / 100 := by
  have h : ((k : ℚ) / 100) * 100 = (k : ℚ) := by field_simp
  unfold round2
  rw [h, rhe_intCast]

/-- A rational that is a whole number of hundredths (a whole number of
cents, for monetary values). -/
def Cents (x : ℚ) : Prop := ∃ k : ℤ, x = (k : ℚ) / 100

theorem cents_round2 (x : ℚ) : Cents (round2 x) := ⟨rhe (x * 100), rfl⟩

theorem round2_fix {x : ℚ} (h : Cents x) : round2 x = x := by
  obtain ⟨k, rfl⟩ := h
  exact round2_cent k

theorem cents_add {x y : ℚ} (hx : Cents x) (hy : Cents y) : Cents (x + y) := by
  obtain ⟨a, rfl⟩ := hx
  obtain ⟨b, rfl⟩ := hy
  exact ⟨a + b, by push_cast; ring⟩

theorem cents_zero : Cents 0 := ⟨0, by norm_num⟩

theorem cents_sum {l : List ℚ} (h : ∀ x ∈ l, Cents x) : Cents l.sum := by
  induction l with
  | nil => simpa using cents_zero
  | cons x xs ih =>
      rw [List.sum_cons]
      exact cents_add (h x (by simp)) (ih (fun y hy => h y (by simp [hy])))

theorem gstSplit_qty (supply : String) (it : Item) :
    (gstSplit supply it).qty = it.qty := by
  unfold gstSplit
  split <;> rfl

theorem gstSplit_price (supply : String) (it : Item) :
    (gstSplit supply it).selling_price = it.selling_price := by
  unfold gstSplit
  split <;> rfl

theorem gstSplit_tax (supply : String) (it : Item) :
    (gstSplit supply it).tax_amount =
      round2 (lineBase it * it.gst_rate.getD 0 / 100) := by
  unfold gstSplit
  split <;> rfl

theorem mkItemRow_tax (inv_id pid : ℕ) (s : Split) :
    (mkItemRow inv_id pid s).tax_amount = s.tax_amount := rfl

theorem mkItemRow_line_total (inv_id pid : ℕ) (s : Split) :
    (mkItemRow inv_id pid s).line_total = line_total_of s := rfl

theorem sum_tax_rows (inv_id : ℕ) (supply : String) (items : List Item) :
    ((splitRows inv_id supply items).map (fun r => r.tax_amount)).sum =
      ((items.map (gstSplit supply)).map (fun s => s.tax_amount)).sum := by
  simp only [splitRows, List.map_map]
  rfl

theorem sum_line_total (inv_id : ℕ) (supply : String) (items : List Item)
    (h : ∀ it ∈ items, Cents (lineBase it)) :
    ((splitRows inv_id supply items).map (fun r => r.line_total)).sum =
      (items.map lineBase).sum +
        ((items.map (gstSplit supply)).map (fun s => s.tax_amount)).sum := by
  induction items with
  | nil => simp [splitRows]
  | cons it rest ih =>
      have hb : Cents (lineBase it) := h it (by simp)
      have ht : Cents ((gstSplit supply it).tax_amount) := by
        rw [gstSplit_tax]
        exact cents_round2 _
      have hlt : line_total_of (gstSplit supply it) =
          lineBase it + (gstSplit supply it).tax_amount := by
        unfold line_total_of
        rw [gstSplit_price, gstSplit_qty]
        exact round2_fix (cents_add hb ht)
      simp only [splitRows, List.map_cons, List.sum_cons] at ih ⊢
      rw [mkItemRow_line_total, hlt, ih (fun x hx => h x (by simp [hx]))]
      ring

theorem round2_zero : round2 0 = 0 := round2_fix cents_zero

theorem mkItemRow_product_id (inv_id pid : ℕ) (s : Split) :
    (mkItemRow inv_id pid s).product_id = pid := rfl

theorem mkSaleRow_product_id (no d nts : String) (pid : ℕ) (s : Split) :
    (mkSaleRow no d nts pid s).product_id = pid := rfl

theorem mkItemRow_qty (inv_id pid : ℕ) (s : Split) :
    (mkItemRow inv_id pid s).qty = s.qty := rfl

theorem mkSaleRow_qty (no d nts : String) (pid : ℕ) (s : Split) :
    (mkSaleRow no d nts pid s).qty = s.qty := rfl

/-- A store holding one product (id 1, price 100, GST 18%) with a single
recorded purchase of quantity 10, and nothing else. -/
def dbP10 : DB :=
  { products := [⟨1, "P", 100, 18⟩]
    purchases := [⟨1, 10, 0⟩]
    invoices := []
    invoice_items := []
    sales := []
    stock_adjustments := []
    customers := []
    payments := []
    next_inv := 1 }

/-- The same store with a single purchase of quantity 1 (stock 1). -/
def dbP1 : DB := { dbP10 with purchases := [⟨1, 1, 0⟩] }

/-- C1.  The claim says `GetStock` equals Σ purchase.qty + Σ adjustment.delta
− Σ invoice_line.qty, each invoice line subtracted exactly once.  Evaluating
the code on a store with one purchase of 10 and one invoice line of quantity
2 yields stock 6, not 10 − 2 = 8: `create_invoice` mirrors every line into
the legacy `sales` table and `get_stock` subtracts both the `invoice_items`
and the `sales` quantities, so each invoice line is subtracted twice. -/
theorem c1_invoice_line_subtracted_twice :
    get_stock (visible (create_invoice_exec ⟨dbP10, []⟩ [⟨some 1, 2, 100, some 18⟩]
      none ("") none none ("INTRA") ("202610") ("D")).1) 1 = 6 ∧
    get_stock (visible (create_invoice_exec ⟨dbP10, []⟩ [⟨some 1, 2, 100, some 18⟩]
      none ("") none none ("INTRA") ("202610") ("D")).1) 1 ≠ 10 - 2 := by
  have h := exec_ok dbP10 [⟨some 1, 2, 100, some 18⟩] none ("") none none
    ("INTRA") ("202610") ("D")
    (by
      intro it hit
      simp only [List.mem_singleton] at hit
      subst hit
      exact ⟨1, rfl, by simp [dbP10]⟩)
    rfl rfl
  rw [h, visible_nil]
  constructor
  · norm_num [get_stock, dbP10, splitRows, saleRowsOf, mkItemRow, mkSaleRow, gstSplit, lineBase]
  · norm_num [get_stock, dbP10, splitRows, saleRowsOf, mkItemRow, mkSaleRow, gstSplit, lineBase]

/-- C2, counterexample.  With current stock 1, `create_invoice` for a line
of quantity 5 does not fail with anything — it persists the invoice; and a
line of quantity exactly equal to the stock leaves stock −1, not 0. -/
theorem c2_counterexample :
    (create_invoice_exec ⟨dbP1, []⟩ [⟨some 1, 5, 100, some 18⟩]
      none ("") none none ("INTRA") ("202610") ("D")).2 =
      some (1, next_invoice_no ("202610") dbP1) ∧
    (create_invoice_exec ⟨dbP1, []⟩ [⟨some 1, 5, 100, some 18⟩]
      none ("") none none ("INTRA") ("202610") ("D")).1.committed.invoices.length = 1 ∧
    get_stock dbP1 1 = 1 ∧
    get_stock (visible (create_invoice_exec ⟨dbP1, []⟩ [⟨some 1, 1, 100, some 18⟩]
      none ("") none none ("INTRA") ("202610") ("D")).1) 1 = -1 ∧
    (-1 : ℚ) ≠ 0 := by
  have h5 := exec_ok dbP1 [⟨some 1, 5, 100, some 18⟩] none ("") none none
    ("INTRA") ("202610") ("D")
    (by
      intro it hit
      simp only [List.mem_singleton] at hit
      subst hit
      exact ⟨1, rfl, by simp [dbP1, dbP10]⟩)
    rfl rfl
  have h1 := exec_ok dbP1 [⟨some 1, 1, 100, some 18⟩] none ("") none none
    ("INTRA") ("202610") ("D")
    (by
      intro it hit
      simp only [List.mem_singleton] at hit
      subst hit
      exact ⟨1, rfl, by simp [dbP1, dbP10]⟩)
    rfl rfl
  refine ⟨by rw [h5]; rfl, by rw [h5]; simp [dbP1, dbP10], ?_, ?_, by norm_num⟩
  · norm_num [get_stock, dbP1, dbP10]
  · rw [h1, visible_nil]
    norm_num [get_stock, dbP1, dbP10, splitRows, saleRowsOf, mkItemRow, mkSaleRow, gstSplit,
      lineBase]

/-- C9, counterexample.  Product id 2 does not exist in the store, yet
`get_stock` does not fail: it returns the quantity 0 (the code never
consults the `products` table and has no `NotFound` path). -/
theorem c9_counterexample :
    (dbP10.products.any (fun p => p.id == 2)) = false ∧ get_stock dbP10 2 = 0 := by
  constructor
  · rfl
  · simp [get_stock, dbP10]

/-- C9, amended.  `get_stock` performs no existence check and never fails;
for any product id with no recorded purchase, invoice-item, sale or
adjustment rows — in particular an id that does not refer to any existing
product — it returns 0, the value of the empty aggregations. -/
theorem c9_amended (db : DB) (pid : ℕ)
    (h1 : ∀ r ∈ db.purchases, r.product_id ≠ pid)
    (h2 : ∀ r ∈ db.invoice_items, r.product_id ≠ pid)
    (h3 : ∀ r ∈ db.sales, r.product_id ≠ pid)
    (h4 : ∀ r ∈ db.stock_adjustments, r.product_id ≠ pid) :
    get_stock db pid = 0 := by
  unfold get_stock
  rw [List.filter_eq_nil_iff.mpr (fun r hr => by simp [h1 r hr]),
    List.filter_eq_nil_iff.mpr (fun r hr => by simp [h2 r hr]),
    List.filter_eq_nil_iff.mpr (fun r hr => by simp [h3 r hr]),
    List.filter_eq_nil_iff.mpr (fun r hr => by simp [h4 r hr])]
  norm_num

/-- C9, witness for the amended theorem at a concrete store. -/
theorem c9_amended_witness : get_stock dbP10 7 = 0 := by
  have h := c9_amended dbP10 7 (by simp [dbP10]) (by simp [dbP10]) (by simp [dbP10])
    (by simp [dbP10])
  exact h

/-- C2, amended.  `create_invoice` performs no stock check at all and has
no `InsufficientStock` failure (the only stock check is advisory, at
add-to-cart time in the UI): whatever the current stock, a call whose
single line has a valid product id, a valid customer reference and a
fresh invoice number succeeds and persists the invoice; afterwards the
product's stock has decreased by twice the line quantity (the line is
subtracted once as an invoice item and once as its mirrored sale row), so
a line with quantity equal to the current stock leaves stock −qty, not 0. -/
theorem c2_amended (db : DB) (it : Item) (pid : ℕ) (cust : Option ℕ) (notes : String)
    (invno wh : Option String) (supply ym nowIso : String)
    (hpid : it.product_id = some pid)
    (hprod : db.products.any (fun p => p.id == pid) = true)
    (hcust : customerOk db.customers cust = true)
    (hfresh : db.invoices.any (fun r => r.invoice_no == chosen_no invno ym db) = false) :
    (create_invoice_exec ⟨db, []⟩ [it] cust notes invno wh supply ym nowIso).2 =
      some (db.next_inv, chosen_no invno ym db) ∧
    get_stock (visible (create_invoice_exec ⟨db, []⟩ [it]
        cust notes invno wh supply ym nowIso).1) pid =
      get_stock db pid - 2 * it.qty := by
  have h := exec_ok db [it] cust notes invno wh supply ym nowIso
    (by
      intro x hx
      simp only [List.mem_singleton] at hx
      subst hx
      exact ⟨pid, hpid, hprod⟩)
    hcust hfresh
  rw [h, visible_nil]
  refine ⟨rfl, ?_⟩
  have hrow : splitRows db.next_inv supply [it] =
      [mkItemRow db.next_inv pid (gstSplit supply it)] := by
    simp [splitRows, hpid]
  have hsrow : saleRowsOf (chosen_no invno ym db) (chosen_date wh nowIso) notes supply [it] =
      [mkSaleRow (chosen_no invno ym db) (chosen_date wh nowIso) notes pid
        (gstSplit supply it)] := by
    simp [saleRowsOf, hpid]
  unfold get_stock
  rw [hrow, hsrow]
  simp only [List.filter_append, List.map_append, List.sum_append, List.filter_cons,
    List.filter_nil, mkItemRow_product_id, mkSaleRow_product_id, beq_self_eq_true,
    if_true, List.map_cons, List.map_nil, List.sum_cons, List.sum_nil,
    mkItemRow_qty, mkSaleRow_qty, gstSplit_qty]
  ring

/-- C2, witness for the amended theorem: stock 1, line quantity 1 — the
call succeeds and stock afterwards is −1. -/
theorem c2_amended_witness :
    (create_invoice_exec ⟨dbP1, []⟩ [⟨some 1, 1, 100, some 18⟩]
      none ("") none none ("INTRA") ("202610") ("D")).2 =
      some (1, chosen_no none ("202610") dbP1) ∧
    get_stock (visible (create_invoice_exec ⟨dbP1, []⟩ [⟨some 1, 1, 100, some 18⟩]
      none ("") none none ("INTRA") ("202610") ("D")).1) 1 =
      get_stock dbP1 1 - 2 * 1 := by
  have h := c2_amended dbP1 ⟨some 1, 1, 100, some 18⟩ 1 none ("") none none
    ("INTRA") ("202610") ("D") rfl (by simp [dbP1, dbP10]) rfl rfl
  exact h

/-- C3, counterexample.  An INTRA invoice with two lines of quantity 1,
unit price 1/8 (0.125, exactly representable in binary floating point) and
GST 0%: each stored `line_total` is `round(0.125, 2) = 0.12`, so the lines
sum to 0.24, but the stored `total_amount` is `round(0.125 + 0.125, 2) =
0.25` — the invoice total is re-derived from the raw (unrounded) subtotal,
not from the rounded per-line totals, so the two differ. -/
theorem c3_counterexample :
    ((create_invoice_exec ⟨dbP10, []⟩ [⟨some 1, 1, 1/8, some 0⟩, ⟨some 1, 1, 1/8, some 0⟩]
        none ("") none none ("INTRA") ("202610") ("D")).1.committed.invoices.map
      (fun r => r.total_amount)) = [25/100] ∧
    ((create_invoice_exec ⟨dbP10, []⟩ [⟨some 1, 1, 1/8, some 0⟩, ⟨some 1, 1, 1/8, some 0⟩]
        none ("") none none ("INTRA") ("202610") ("D")).1.committed.invoice_items.map
      (fun r => r.line_total)).sum = 24/100 ∧
    (24 : ℚ)/100 ≠ 25/100 := by
  have h := exec_ok dbP10 [⟨some 1, 1, 1/8, some 0⟩, ⟨some 1, 1, 1/8, some 0⟩]
    none ("") none none ("INTRA") ("202610") ("D")
    (by
      intro it hit
      simp only [List.mem_cons, List.not_mem_nil, or_false] at hit
      rcases hit with rfl | rfl <;> exact ⟨1, rfl, by simp [dbP10]⟩)
    rfl rfl
  rw [h]
  refine ⟨?_, ?_, by norm_num⟩
  · norm_num [dbP10, headerOf, gstSplit, lineBase, round2, rhe]
  · have hf : Int.fract ((25 : ℚ)/2) = 1/2 := by
      rw [Int.fract]
      norm_num
    norm_num [dbP10, splitRows, mkItemRow, gstSplit, lineBase, line_total_of, round2, rhe, hf]

/-- C3, amended.  For every persisted invoice the sum of its lines'
`tax_amount` values equals the stored `total_tax` exactly (the header sums
the already-rounded per-line taxes).  The stored `total_amount`, however,
is `round(raw subtotal + total_tax, 2)` computed from the *unrounded* line
bases; it equals the sum of the lines' `line_total` values whenever every
line's `qty × unit_price` is a whole number of cents (and can differ
otherwise, see the counterexample). -/
theorem c3_amended (db : DB) (items : List Item) (cust : Option ℕ) (notes : String)
    (invno wh : Option String) (supply ym nowIso : String)
    (hpids : ∀ it ∈ items, ∃ pid, it.product_id = some pid ∧
      db.products.any (fun p => p.id == pid) = true)
    (hcust : customerOk db.customers cust = true)
    (hfresh : db.invoices.any (fun r => r.invoice_no == chosen_no invno ym db) = false) :
    ∃ hdr,
      (create_invoice_exec ⟨db, []⟩ items cust notes invno wh
          supply ym nowIso).1.committed.invoices = db.invoices ++ [hdr] ∧
      (((create_invoice_exec ⟨db, []⟩ items cust notes invno wh
            supply ym nowIso).1.committed.invoice_items.drop
          db.invoice_items.length).map (fun r => r.tax_amount)).sum = hdr.total_tax ∧
      ((∀ it ∈ items, Cents (lineBase it)) →
        (((create_invoice_exec ⟨db, []⟩ items cust notes invno wh
              supply ym nowIso).1.committed.invoice_items.drop
            db.invoice_items.length).map (fun r => r.line_total)).sum = hdr.total_amount) := by
  have h := exec_ok db items cust notes invno wh supply ym nowIso hpids hcust hfresh
  rw [h]
  refine ⟨headerOf db items cust notes invno wh supply ym nowIso, rfl, ?_, ?_⟩
  · rw [List.drop_left, sum_tax_rows]
    rfl
  · intro hc
    rw [List.drop_left, sum_line_total db.next_inv supply items hc]
    have hb : Cents (items.map lineBase).sum := by
      refine cents_sum ?_
      intro x hx
      obtain ⟨it, hit, rfl⟩ := List.mem_map.mp hx
      exact hc it hit
    have ht : Cents ((items.map (gstSplit supply)).map (fun s => s.tax_amount)).sum := by
      refine cents_sum ?_
      intro x hx
      obtain ⟨s, hs, rfl⟩ := List.mem_map.mp hx
      obtain ⟨it, hit, rfl⟩ := List.mem_map.mp hs
      rw [gstSplit_tax]
      exact cents_round2 _
    exact (round2_fix (cents_add hb ht)).symm

/-- C3, witness for the amended theorem: one line of quantity 2 at price
100 and GST 18% — the base is 200, a whole number of cents. -/
theorem c3_amended_witness :
    ∃ hdr,
      (create_invoice_exec ⟨dbP10, []⟩ [⟨some 1, 2, 100, some 18⟩] none ("") none none
          ("INTRA") ("202610") ("D")).1.committed.invoices = dbP10.invoices ++ [hdr] ∧
      (((create_invoice_exec ⟨dbP10, []⟩ [⟨some 1, 2, 100, some 18⟩] none ("") none none
            ("INTRA") ("202610") ("D")).1.committed.invoice_items.drop
          dbP10.invoice_items.length).map (fun r => r.tax_amount)).sum = hdr.total_tax ∧
      ((∀ it ∈ [(⟨some 1, 2, 100, some 18⟩ : Item)], Cents (lineBase it)) →
        (((create_invoice_exec ⟨dbP10, []⟩ [⟨some 1, 2, 100, some 18⟩] none ("") none none
              ("INTRA") ("202610") ("D")).1.committed.invoice_items.drop
            dbP10.invoice_items.length).map (fun r => r.line_total)).sum = hdr.total_amount) := by
  exact c3_amended dbP10 [⟨some 1, 2, 100, some 18⟩] none ("") none none
    ("INTRA") ("202610") ("D")
    (by
      intro it hit
      simp only [List.mem_singleton] at hit
      subst hit
      exact ⟨1, rfl, by simp [dbP10]⟩)
    rfl rfl

/-- C4, counterexample.  A line with quantity 1, unit price 1/4 (0.25) and
GST rate 50% has raw tax 0.125, exactly representable in binary floating
point.  Half-up rounding gives 0.13, but the code's `round` (half to even)
stores `tax_amount = 0.12` — the claim's "half-up rounding" is wrong.  The
claim's preconditions qty > 0, price ≥ 0, rate ≥ 0 all hold here. -/
theorem c4_counterexample :
    ((create_invoice_exec ⟨dbP10, []⟩ [⟨some 1, 1, 1/4, some 50⟩] none ("") none none
        ("INTRA") ("202610") ("D")).1.committed.invoice_items.map
      (fun r => r.tax_amount)) = [12/100] ∧
    rhu2 ((1 : ℚ) * (1/4) * 50 / 100) = 13/100 ∧
    ((12 : ℚ)/100) ≠ 13/100 ∧
    (0 : ℚ) < 1 ∧ (0 : ℚ) ≤ 1/4 ∧ (0 : ℚ) ≤ 50 := by
  have h := exec_ok dbP10 [⟨some 1, 1, 1/4, some 50⟩] none ("") none none
    ("INTRA") ("202610") ("D")
    (by
      intro it hit
      simp only [List.mem_singleton] at hit
      subst hit
      exact ⟨1, rfl, by simp [dbP10]⟩)
    rfl rfl
  rw [h]
  have hf : Int.fract ((25 : ℚ)/2) = 1/2 := by
    rw [Int.fract]
    norm_num
  refine ⟨?_, ?_, by norm_num, by norm_num, by norm_num, by norm_num⟩
  · norm_num [dbP10, splitRows, mkItemRow, gstSplit, lineBase, round2, rhe, hf]
  · norm_num [rhu2]

/-- C4, amended.  For every invoice line with quantity > 0, unit price ≥ 0
and tax rate ≥ 0, the stored `tax_amount` equals
`round2(qty × unit_price × rate / 100)` where `round2` is Python's `round`
(banker's rounding, half to even) — not half-up; under INTRA supply,
`cgst_amount = round2(tax_amount / 2)` and
`sgst_amount = tax_amount − cgst_amount`; under any other supply type
(i.e. INTER), `igst_amount = tax_amount` and cgst/sgst are 0. -/
theorem c4_amended (inv_id pid : ℕ) (supply : String) (it : Item)
    (h1 : 0 < it.qty) (h2 : 0 ≤ it.selling_price) (h3 : 0 ≤ it.gst_rate.getD 0) :
    (mkItemRow inv_id pid (gstSplit supply it)).tax_amount =
      round2 (it.qty * it.selling_price * it.gst_rate.getD 0 / 100) ∧
    (supply = "INTRA" →
      (mkItemRow inv_id pid (gstSplit supply it)).cgst_amount =
        round2 ((mkItemRow inv_id pid (gstSplit supply it)).tax_amount / 2) ∧
      (mkItemRow inv_id pid (gstSplit supply it)).sgst_amount =
        (mkItemRow inv_id pid (gstSplit supply it)).tax_amount -
          (mkItemRow inv_id pid (gstSplit supply it)).cgst_amount ∧
      (mkItemRow inv_id pid (gstSplit supply it)).igst_amount = 0) ∧
    (supply ≠ "INTRA" →
      (mkItemRow inv_id pid (gstSplit supply it)).igst_amount =
        (mkItemRow inv_id pid (gstSplit supply it)).tax_amount ∧
      (mkItemRow inv_id pid (gstSplit supply it)).cgst_amount = 0 ∧
      (mkItemRow inv_id pid (gstSplit supply it)).sgst_amount = 0) := by
  refine ⟨?_, ?_, ?_⟩
  · rw [mkItemRow_tax, gstSplit_tax]
    congr 1
    unfold lineBase
    ring
  · intro hs
    simp [mkItemRow, gstSplit, hs]
  · intro hs
    simp [mkItemRow, gstSplit, hs]

/-- C4, witness for the amended theorem at quantity 2, price 100, GST 18%,
INTRA: the hypotheses hold and the split follows the stated formulas. -/
theorem c4_amended_witness :
    (mkItemRow 1 1 (gstSplit ("INTRA") ⟨some 1, 2, 100, some 18⟩)).tax_amount =
      round2 ((2 : ℚ) * 100 * (Option.getD (some 18) 0) / 100) ∧
    (mkItemRow 1 1 (gstSplit ("INTRA") ⟨some 1, 2, 100, some 18⟩)).cgst_amount =
      round2 ((mkItemRow 1 1 (gstSplit ("INTRA") ⟨some 1, 2, 100, some 18⟩)).tax_amount / 2) ∧
    (mkItemRow 1 1 (gstSplit ("INTRA") ⟨some 1, 2, 100, some 18⟩)).sgst_amount =
      (mkItemRow 1 1 (gstSplit ("INTRA") ⟨some 1, 2, 100, some 18⟩)).tax_amount -
        (mkItemRow 1 1 (gstSplit ("INTRA") ⟨some 1, 2, 100, some 18⟩)).cgst_amount := by
  have h := c4_amended 1 1 ("INTRA") ⟨some 1, 2, 100, some 18⟩
    (by norm_num) (by norm_num) (by simp)
  obtain ⟨ht, hintra, _⟩ := h
  obtain ⟨hc, hsg, _⟩ := hintra rfl
  exact ⟨ht, hc, hsg⟩

/-- C5.  Every `invoice_items` row written by `create_invoice`: under
INTRA supply, `cgst_amount + sgst_amount` equals `tax_amount` exactly and
`igst_amount` is 0; under any other supply type (INTER), `igst_amount`
equals `tax_amount` and `cgst_amount` and `sgst_amount` are both 0. -/
theorem c5_gst_split_sums (inv_id : ℕ) (supply : String) (items : List Item)
    (row : ItemRow) (hrow : row ∈ splitRows inv_id supply items) :
    if supply = "INTRA" then
      row.cgst_amount + row.sgst_amount = row.tax_amount ∧ row.igst_amount = 0
    else
      row.igst_amount = row.tax_amount ∧ row.cgst_amount = 0 ∧ row.sgst_amount = 0 := by
  obtain ⟨it, hit, rfl⟩ := List.mem_map.mp hrow
  by_cases hs : supply = "INTRA"
  · simp only [hs, if_true, mkItemRow, gstSplit, if_pos rfl]
    constructor
    · ring
    · trivial
  · rw [if_neg hs]
    simp [mkItemRow, gstSplit, hs]

/-- C5, witness: the single INTRA line of quantity 2, price 100, GST 18%
satisfies `cgst + sgst = tax` and `igst = 0`. -/
theorem c5_witness :
    (mkItemRow 1 1 (gstSplit ("INTRA") ⟨some 1, 2, 100, some 18⟩)).cgst_amount +
        (mkItemRow 1 1 (gstSplit ("INTRA") ⟨some 1, 2, 100, some 18⟩)).sgst_amount =
      (mkItemRow 1 1 (gstSplit ("INTRA") ⟨some 1, 2, 100, some 18⟩)).tax_amount ∧
    (mkItemRow 1 1 (gstSplit ("INTRA") ⟨some 1, 2, 100, some 18⟩)).igst_amount = 0 := by
  have h := c5_gst_split_sums 1 ("INTRA") [⟨some 1, 2, 100, some 18⟩]
    (mkItemRow 1 1 (gstSplit ("INTRA") ⟨some 1, 2, 100, some 18⟩))
    (by simp [splitRows])
  simpa using h

/-- Ledger fixture: one customer (opening balance 0, credit limit 100),
one invoice of 236 for that customer, one payment of 100. -/
def dbLedger : DB :=
  { products := [⟨1, "P", 100, 18⟩]
    purchases := []
    invoices := [⟨1, "INV-202610-0001", some 1, "D", 36, 200, 236, "INTRA", ""⟩]
    invoice_items := []
    sales := []
    stock_adjustments := []
    customers := [⟨1, "A", 0, 100⟩]
    payments := [⟨some 1, some 1, 100⟩]
    next_inv := 2 }

/-- C6.  For every customer, the `balance` column computed by
`customer_balances` equals the customer's opening balance plus the sum of
`total_amount` over that customer's invoices minus the sum of `amount`
over that customer's payments; the `customers` table stores no balance
column, so the balance is always derived this way. -/
theorem c6_balance_formula (db : DB) (c : Customer) (hc : c ∈ db.customers) :
    ∃ r ∈ customer_balances db, r.id = c.id ∧
      r.balance = c.opening_balance + billedFor db c.id - paidFor db c.id := by
  refine ⟨_, List.mem_map_of_mem _ hc, rfl, ?_⟩
  show billedFor db c.id - paidFor db c.id + c.opening_balance =
    c.opening_balance + billedFor db c.id - paidFor db c.id
  ring

/-- C6, witness: the spec's own scenario — opening balance 0, one invoice
of 236, one payment of 100 — gives balance 136. -/
theorem c6_witness :
    ∃ r ∈ customer_balances dbLedger, r.id = 1 ∧ r.balance = 136 := by
  obtain ⟨r, hr, hid, hb⟩ := c6_balance_formula dbLedger ⟨1, "A", 0, 100⟩
    (by simp [dbLedger])
  refine ⟨r, hr, hid, ?_⟩
  rw [hb]
  norm_num [billedFor, paidFor, dbLedger]

/-- C8.  `next_invoice_no` returns `INV-` ++ the current year-month ++ `-`
++ the count of invoices already stored plus one, rendered as its decimal
digits left-padded with `'0'` to a minimum width of four characters. -/
theorem c8_invoice_number_format (ym : String) (db : DB) :
    next_invoice_no ym db = "INV-" ++ ym ++ "-" ++ zfill4 (db.invoices.length + 1) ∧
    (zfill4 (db.invoices.length + 1)).data =
      List.replicate (4 - (Nat.repr (db.invoices.length + 1)).length) '0' ++
        (Nat.repr (db.invoices.length + 1)).data ∧
    4 ≤ (zfill4 (db.invoices.length + 1)).length := by
  refine ⟨rfl, rfl, ?_⟩
  show 4 ≤ (String.mk _).length
  simp only [String.length, List.length_append, List.length_replicate]
  omega

/-- C10.  `create_invoice` with an empty cart and no supplied invoice
number does not fail (given a valid customer reference and a fresh
generated number): it persists a header with subtotal 0, total_tax 0 and
total_amount 0, a generated `next_invoice_no`, writes no lines and no
mirrored sale rows, and returns the new row id and the generated number. -/
theorem c10_empty_invoice (db : DB) (cust : Option ℕ) (notes : String)
    (wh : Option String) (supply ym nowIso : String)
    (hcust : customerOk db.customers cust = true)
    (hfresh : db.invoices.any (fun r => r.invoice_no == next_invoice_no ym db) = false) :
    (create_invoice_exec ⟨db, []⟩ [] cust notes none wh supply ym nowIso).2 =
      some (db.next_inv, next_invoice_no ym db) ∧
    (create_invoice_exec ⟨db, []⟩ [] cust notes none wh supply ym nowIso).1 =
      ⟨{ db with
          invoices := db.invoices ++
            [{ id := db.next_inv
               invoice_no := next_invoice_no ym db
               customer_id := cust
               date := chosen_date wh nowIso
               total_tax := 0
               subtotal := 0
               total_amount := 0
               supply_type := supply
               notes := notes }]
          next_inv := db.next_inv + 1 }, []⟩ := by
  have h := exec_ok db [] cust notes none wh supply ym nowIso (by simp) hcust hfresh
  rw [h]
  refine ⟨rfl, ?_⟩
  simp only [Conn.mk.injEq, Prod.mk.injEq]
  refine ⟨?_, trivial⟩
  apply DB.ext <;>
    simp [headerOf, splitRows, saleRowsOf, round2_zero, chosen_no]

/-- C10, witness at a concrete store. -/
theorem c10_witness :
    (create_invoice_exec ⟨dbP10, []⟩ [] none ("") none none
      ("INTRA") ("202610") ("D")).2 = some (1, next_invoice_no ("202610") dbP10) ∧
    (create_invoice_exec ⟨dbP10, []⟩ [] none ("") none none
      ("INTRA") ("202610") ("D")).1 =
      ⟨{ dbP10 with
          invoices := dbP10.invoices ++
            [{ id := 1
               invoice_no := next_invoice_no ("202610") dbP10
               customer_id := none
               date := chosen_date none ("D")
               total_tax := 0
               subtotal := 0
               total_amount := 0
               supply_type := "INTRA"
               notes := "" }]
          next_inv := 2 }, []⟩ := by
  have h := c10_empty_invoice dbP10 none ("") none ("INTRA") ("202610") ("D") rfl rfl
  exact h

theorem itemWrites_true_parts (products : List Product) (inv_id : ℕ)
    (no d nts : String) (splits : List Split)
    (h : (itemWrites products inv_id no d nts splits).2 = true) :
    (itemWrites products inv_id no d nts splits).1.filterMap invPart = [] ∧
    ((itemWrites products inv_id no d nts splits).1.filterMap itemPart).length =
      splits.length ∧
    ((itemWrites products inv_id no d nts splits).1.filterMap salePart).length =
      splits.length := by
  induction splits with
  | nil => simp [itemWrites]
  | cons s rest ih =>
      cases hs : s.product_id with
      | none =>
          rw [show itemWrites products inv_id no d nts (s :: rest) = ([], false) by
            simp [itemWrites, hs]] at h
          simp at h
      | some pid =>
          by_cases hp : products.any (fun p => p.id == pid) = true
          · have hstep : itemWrites products inv_id no d nts (s :: rest) =
                (Write.item (mkItemRow inv_id pid s) ::
                  Write.sale (mkSaleRow no d nts pid s) ::
                  (itemWrites products inv_id no d nts rest).1,
                 (itemWrites products inv_id no d nts rest).2) := by
              simp [itemWrites, hs, hp]
            rw [hstep] at h ⊢
            obtain ⟨a, b, c⟩ := ih h
            simp [List.filterMap_cons, invPart, itemPart, salePart, a, b, c]
          · rw [Bool.not_eq_true] at hp
            rw [show itemWrites products inv_id no d nts (s :: rest) = ([], false) by
              simp [itemWrites, hs, hp]] at h
            simp at h

/-- C7, counterexample.  A `create_invoice` call whose second line has a
`None` product id fails after the header and the first line (with its
mirrored sale row) have been inserted: the call returns no result, nothing
is committed, but the partially written invoice — header plus one of its
two lines — is visible to every subsequent read on the shared connection,
contradicting "on any failure none of them is visible afterwards". -/
theorem c7_counterexample :
    (create_invoice_exec ⟨dbP10, []⟩
        [⟨some 1, 1, 100, some 18⟩, ⟨none, 1, 100, some 18⟩]
        none ("") none none ("INTRA") ("202610") ("D")).2 = none ∧
    (visible (create_invoice_exec ⟨dbP10, []⟩
        [⟨some 1, 1, 100, some 18⟩, ⟨none, 1, 100, some 18⟩]
        none ("") none none ("INTRA") ("202610") ("D")).1).invoices.length = 1 ∧
    (visible (create_invoice_exec ⟨dbP10, []⟩
        [⟨some 1, 1, 100, some 18⟩, ⟨none, 1, 100, some 18⟩]
        none ("") none none ("INTRA") ("202610") ("D")).1).invoice_items.length = 1 ∧
    (visible (create_invoice_exec ⟨dbP10, []⟩
        [⟨some 1, 1, 100, some 18⟩, ⟨none, 1, 100, some 18⟩]
        none ("") none none ("INTRA") ("202610") ("D")).1).sales.length = 1 ∧
    (create_invoice_exec ⟨dbP10, []⟩
        [⟨some 1, 1, 100, some 18⟩, ⟨none, 1, 100, some 18⟩]
        none ("") none none ("INTRA") ("202610") ("D")).1.committed = dbP10 := by
  refine ⟨?_, ?_, ?_, ?_, ?_⟩ <;>
    simp [create_invoice_exec, visible, applyWrites, applyWrite, itemWrites,
      dbP10, gstSplit, customerOk]

/-- C7, amended.  When `create_invoice` completes, the header, all lines
and all mirrored sale rows are committed together in one commit.  When it
fails mid-way, nothing is durably committed by the call itself — but the
rows already inserted stay pending in the connection's open transaction
and remain visible to subsequent reads through that shared connection (no
rollback is issued), so a partially written invoice can be observed after
a failure. -/
theorem c7_amended (c : Conn) (items : List Item) (cust : Option ℕ) (notes : String)
    (invno wh : Option String) (supply ym nowIso : String)
    (hp : c.pending = []) :
    (∀ v, (create_invoice_exec c items cust notes invno wh supply ym nowIso).2 = some v →
      (create_invoice_exec c items cust notes invno wh supply ym nowIso).1.pending = [] ∧
      ∃ hdr rows srows,
        (create_invoice_exec c items cust notes invno wh
            supply ym nowIso).1.committed.invoices = c.committed.invoices ++ [hdr] ∧
        (create_invoice_exec c items cust notes invno wh
            supply ym nowIso).1.committed.invoice_items =
          c.committed.invoice_items ++ rows ∧
        (create_invoice_exec c items cust notes invno wh
            supply ym nowIso).1.committed.sales = c.committed.sales ++ srows ∧
        rows.length = items.length ∧ srows.length = items.length) ∧
    ((create_invoice_exec c items cust notes invno wh supply ym nowIso).2 = none →
      (create_invoice_exec c items cust notes invno wh supply ym nowIso).1.committed =
        c.committed) := by
  obtain ⟨db, pending⟩ := c
  dsimp only at hp ⊢
  subst hp
  by_cases h1 : ((db.invoices.any (fun r => r.invoice_no == chosen_no invno ym db)) ||
      !customerOk db.customers cust) = true
  · have hres : create_invoice_exec ⟨db, []⟩ items cust notes invno wh supply ym nowIso =
        (⟨db, []⟩, none) := by
      simp only [create_invoice_exec, visible_nil]
      rw [if_pos h1]
    rw [hres]
    refine ⟨?_, fun _ => rfl⟩
    intro v hv
    simp at hv
  · by_cases h2 : (itemWrites db.products db.next_inv (chosen_no invno ym db)
        (chosen_date wh nowIso) notes (items.map (gstSplit supply))).2 = true
    · have hres : create_invoice_exec ⟨db, []⟩ items cust notes invno wh supply ym nowIso =
          ({ committed := applyWrites db
              (Write.inv (headerOf db items cust notes invno wh supply ym nowIso) ::
                (itemWrites db.products db.next_inv (chosen_no invno ym db)
                  (chosen_date wh nowIso) notes (items.map (gstSplit supply))).1),
             pending := [] },
           some (db.next_inv, chosen_no invno ym db)) := by
        simp only [create_invoice_exec, visible_nil]
        rw [if_neg h1, if_pos h2]
        rfl
      rw [hres]
      obtain ⟨pa, pb, pc⟩ := itemWrites_true_parts db.products db.next_inv
        (chosen_no invno ym db) (chosen_date wh nowIso) notes
        (items.map (gstSplit supply)) h2
      refine ⟨?_, ?_⟩
      · intro v hv
        refine ⟨rfl, headerOf db items cust notes invno wh supply ym nowIso,
          (itemWrites db.products db.next_inv (chosen_no invno ym db)
            (chosen_date wh nowIso) notes (items.map (gstSplit supply))).1.filterMap itemPart,
          (itemWrites db.products db.next_inv (chosen_no invno ym db)
            (chosen_date wh nowIso) notes (items.map (gstSplit supply))).1.filterMap salePart,
          ?_, ?_, ?_, ?_, ?_⟩
        · simp [applyWrites_invoices, List.filterMap_cons, invPart, pa]
        · simp [applyWrites_items, List.filterMap_cons, itemPart]
        · simp [applyWrites_sales, List.filterMap_cons, salePart]
        · rw [pb, List.length_map]
        · rw [pc, List.length_map]
      · intro hnone
        simp at hnone
    · have hres : create_invoice_exec ⟨db, []⟩ items cust notes invno wh supply ym nowIso =
          ({ committed := db,
             pending := Write.inv (headerOf db items cust notes invno wh supply ym nowIso) ::
               (itemWrites db.products db.next_inv (chosen_no invno ym db)
                 (chosen_date wh nowIso) notes (items.map (gstSplit supply))).1 },
           none) := by
        simp only [create_invoice_exec, visible_nil]
        rw [if_neg h1, if_neg h2]
        rfl
      rw [hres]
      refine ⟨?_, fun _ => rfl⟩
      intro v hv
      simp at hv

/-- C7, witness for the amended theorem: a successful single-line call on
a fresh connection commits header, one line and one sale row together. -/
theorem c7_amended_witness :
    (create_invoice_exec ⟨dbP10, []⟩ [⟨some 1, 2, 100, some 18⟩] none ("") none none
      ("INTRA") ("202610") ("D")).1.pending = [] ∧
    ∃ hdr rows srows,
      (create_invoice_exec ⟨dbP10, []⟩ [⟨some 1, 2, 100, some 18⟩] none ("") none none
        ("INTRA") ("202610") ("D")).1.committed.invoices = dbP10.invoices ++ [hdr] ∧
      (create_invoice_exec ⟨dbP10, []⟩ [⟨some 1, 2, 100, some 18⟩] none ("") none none
        ("INTRA") ("202610") ("D")).1.committed.invoice_items =
        dbP10.invoice_items ++ rows ∧
      (create_invoice_exec ⟨dbP10, []⟩ [⟨some 1, 2, 100, some 18⟩] none ("") none none
        ("INTRA") ("202610") ("D")).1.committed.sales = dbP10.sales ++ srows ∧
      rows.length = 1 ∧ srows.length = 1 := by
  have hv : (create_invoice_exec ⟨dbP10, []⟩ [⟨some 1, 2, 100, some 18⟩] none ("") none none
      ("INTRA") ("202610") ("D")).2 = some (1, chosen_no none ("202610") dbP10) := by
    rw [exec_ok dbP10 [⟨some 1, 2, 100, some 18⟩] none ("") none none
      ("INTRA") ("202610") ("D")
      (by
        intro it hit
        simp only [List.mem_singleton] at hit
        subst hit
        exact ⟨1, rfl, by simp [dbP10]⟩)
      rfl rfl]
    rfl
  have h := (c7_amended ⟨dbP10, []⟩ [⟨some 1, 2, 100, some 18⟩] none ("") none none
    ("INTRA") ("202610") ("D") rfl).1 (1, chosen_no none ("202610") dbP10) hv
  exact h
